import Mathlib

/-!
Shallow embedding of the gdrive-mcp repository (src/server.py,
src/_tools/gdrive_download.py, src/_tools/gdrive_recent.py).

Remote-provider interactions (the Drive API client, OAuth transport, the
local token file) are modelled as explicit environment records of outcome
functions; each operation of the source becomes a total Lean function from
such an environment to its observable result, together with a trace of the
provider requests it issued.  Machine strings are Lean String values; the
single-quote character is produced by Char.ofNat 39.
-/

set_option maxRecDepth 100000

/-- The single-quote character, U+0027. -/
def quoteChar : Char := Char.ofNat 39

/-- A one-character string holding the single quote. -/
def qm : String := String.mk [quoteChar]

/-- JSON values, the shape of every payload the tools serialize with
json.dumps.  The embedding keeps payloads structured rather than rendered. -/
inductive JVal where
  | str : String → JVal
  | num : Int → JVal
  | bool : Bool → JVal
  | null : JVal
  | arr : List JVal → JVal
  | obj : List (String × JVal) → JVal

/-- The Python str.startswith test, on the character lists of the two
strings so that it evaluates by kernel reduction. -/
def strStarts (s pat : String) : Bool := pat.data.isPrefixOf s.data

/-- Optional string field of an API item, as json.dumps renders a Python
value that may be None. -/
def optStr : Option String → JVal
  | some s => JVal.str s
  | none => JVal.null

/-- One owner entry of a Drive file, keys may be absent. -/
structure Owner where
  displayName : Option String := none
  emailAddress : Option String := none
deriving DecidableEq

/-- One item of a Drive API response; every key may be absent, matching the
Python dict .get access pattern. -/
structure Item where
  id : Option String := none
  name : Option String := none
  mimeType : Option String := none
  modifiedTime : Option String := none
  createdTime : Option String := none
  webViewLink : Option String := none
  size : Option String := none
  shared : Option Bool := none
  owners : List Owner := []
deriving DecidableEq

namespace Download

/-- EXPORT_MIME_TYPES of src/_tools/gdrive_download.py, lines 31-53: the
table from workspace-native MIME type to export targets, each with a file
extension, in declaration order. -/
def EXPORT_MIME_TYPES : List (String × List (String × String)) :=
  [("application/vnd.google-apps.document",
     [("text/plain", ".txt"),
      ("application/vnd.openxmlformats-officedocument.wordprocessingml.document", ".docx"),
      ("application/pdf", ".pdf"),
      ("text/html", ".html")]),
   ("application/vnd.google-apps.spreadsheet",
     [("application/vnd.openxmlformats-officedocument.spreadsheetml.sheet", ".xlsx"),
      ("text/csv", ".csv"),
      ("application/pdf", ".pdf")]),
   ("application/vnd.google-apps.presentation",
     [("application/vnd.openxmlformats-officedocument.presentationml.presentation", ".pptx"),
      ("application/pdf", ".pdf"),
      ("text/plain", ".txt")]),
   ("application/vnd.google-apps.drawing",
     [("image/png", ".png"),
      ("image/jpeg", ".jpg"),
      ("application/pdf", ".pdf")])]

/-- Environment of download_file: outcomes of the export and direct-media
fetches (the chunked MediaIoBaseDownload loop collapsed to its final
buffer), and whether the output path is a directory. -/
structure Env where
  exportFn : String → String → Except String String
  mediaFn : String → Except String String
  outputIsDir : Bool

/-- Observable outcome of download_file: the returned boolean, which
provider request was made, what was written to disk, and the list of
alternative formats printed by the unsupported-format error path. -/
structure Result where
  success : Bool
  exportRequested : Option String := none
  directRequested : Bool := false
  written : Option (String × String) := none
  listedAlternatives : List String := []
deriving DecidableEq

/-- The export request and file write of download_file once an export MIME
type has been chosen (gdrive_download.py lines 133-168). -/
def doExport (env : Env) (file_id export_mime output_file : String) : Result :=
  match env.exportFn file_id export_mime with
  | Except.error _ => { success := false, exportRequested := some export_mime }
  | Except.ok content =>
      { success := true, exportRequested := some export_mime,
        written := some (output_file, content) }

/-- The direct download request and file write of download_file for a
non-workspace file (gdrive_download.py lines 136-168). -/
def doDirect (env : Env) (file_id output_file : String) : Result :=
  match env.mediaFn file_id with
  | Except.error _ => { success := false, directRequested := true }
  | Except.ok content =>
      { success := true, directRequested := true,
        written := some (output_file, content) }

/-- Export-format resolution of download_file (gdrive_download.py lines
116-129): an explicitly requested format is validated against the keys of
the export table and the valid keys are reported on mismatch; with no
explicit format, text/plain is preferred when offered, else the
first-declared key. -/
def resolveExportMime (export_options : List (String × String))
    (export_format : Option String) : Except (List String) String :=
  match export_format with
  | some f =>
    if (export_options.map Prod.fst).contains f then Except.ok f
    else Except.error (export_options.map Prod.fst)
  | none =>
    if (export_options.map Prod.fst).contains "text/plain" then Except.ok "text/plain"
    else Except.ok ((export_options.map Prod.fst).headD "")

/-- download_file of src/_tools/gdrive_download.py, lines 104-172. -/
def download_file (env : Env) (file_id file_name mime_type output_path : String)
    (export_format : Option String) : Result :=
  if strStarts mime_type "application/vnd.google-apps." then
    let export_options := (List.lookup mime_type EXPORT_MIME_TYPES).getD []
    if export_options.isEmpty then
      { success := false }
    else
      match resolveExportMime export_options export_format with
      | Except.error alts => { success := false, listedAlternatives := alts }
      | Except.ok export_mime =>
        let extension := (List.lookup export_mime export_options).getD ""
        let output_file :=
          if env.outputIsDir then
            if extension != "" then output_path ++ "/" ++ file_name ++ extension
            else output_path ++ "/" ++ file_name
          else output_path
        doExport env file_id export_mime output_file
  else
    let output_file := if env.outputIsDir then output_path ++ "/" ++ file_name else output_path
    doDirect env file_id output_file

/-- The query string built by find_file_by_name
(gdrive_download.py line 89). -/
def nameQueryOf (name : String) : String :=
  "name = " ++ qm ++ name ++ qm ++ " and trashed = false"

/-- find_file_by_name of src/_tools/gdrive_download.py, lines 85-101:
returns the chosen item plus the warning or error lines printed. -/
def find_file_by_name (listFn : String → List Item) (listErr : Option String)
    (name : String) : Option Item × List String :=
  match listErr with
  | some e => (none, ["An error occurred while searching: " ++ e])
  | none =>
    let items := listFn (nameQueryOf name)
    match items with
    | [] => (none, [])
    | x :: rest =>
      if rest.length > 0 then
        (some x, ["Warning: Multiple files found with name " ++ qm ++ name ++ qm ++
                  ". Using the first one."])
      else (some x, [])

end Download

/-- Whichever export result download_file settles on, its Result records
that export MIME type as the one requested from the provider. -/
theorem Download.doExport_exportRequested (env : Download.Env) (fid em f : String) :
    (Download.doExport env fid em f).exportRequested = some em := by
  cases h : env.exportFn fid em <;> simp [Download.doExport, h]

/-- For a workspace-native tag whose export table in EXPORT_MIME_TYPES is
non-empty, download_file requests exactly the export MIME type that
resolveExportMime settles on. -/
theorem Download.download_file_exportRequested (env : Download.Env)
    (fid fname tag out : String) (fmtOpt : Option String)
    (opts : List (String × String)) (em : String)
    (hws : strStarts tag "application/vnd.google-apps." = true)
    (hlk : (List.lookup tag Download.EXPORT_MIME_TYPES).getD [] = opts)
    (hne : opts ≠ [])
    (hch : Download.resolveExportMime opts fmtOpt = Except.ok em) :
    (Download.download_file env fid fname tag out fmtOpt).exportRequested = some em := by
  rcases opts with _ | ⟨p, rest⟩
  · exact absurd rfl hne
  · simp [Download.download_file, hws, hlk, hch, Download.doExport_exportRequested]

/-- When resolveExportMime rejects the requested format, download_file
fails without issuing any provider request or write, listing the rejected
alternatives. -/
theorem Download.download_file_badFormat (env : Download.Env)
    (fid fname tag out : String) (fmtOpt : Option String)
    (opts : List (String × String)) (alts : List String)
    (hws : strStarts tag "application/vnd.google-apps." = true)
    (hlk : (List.lookup tag Download.EXPORT_MIME_TYPES).getD [] = opts)
    (hne : opts ≠ [])
    (hch : Download.resolveExportMime opts fmtOpt = Except.error alts) :
    Download.download_file env fid fname tag out fmtOpt =
      { success := false, exportRequested := none, directRequested := false,
        written := none, listedAlternatives := alts } := by
  rcases opts with _ | ⟨p, rest⟩
  · exact absurd rfl hne
  · simp [Download.download_file, hws, hlk, hch]

/-- C3: with explicit_format omitted, download_file on a workspace-native
tag whose export table is declared in EXPORT_MIME_TYPES and non-empty
requests the export representation text/plain when the table offers it,
and otherwise the first-declared entry of the table. -/
theorem claim_C3_default_format (tag : String) (table : List (String × String))
    (env : Download.Env) (fid fname out : String)
    (hmem : (tag, table) ∈ Download.EXPORT_MIME_TYPES) (hne : table ≠ []) :
    (Download.download_file env fid fname tag out none).exportRequested =
      some (if (table.map Prod.fst).contains "text/plain" then "text/plain"
            else (table.map Prod.fst).headD "") := by
  simp only [Download.EXPORT_MIME_TYPES, List.mem_cons, List.not_mem_nil, or_false,
    Prod.mk.injEq] at hmem
  rcases hmem with ⟨h1, h2⟩ | ⟨h1, h2⟩ | ⟨h1, h2⟩ | ⟨h1, h2⟩ <;> subst h1 <;> subst h2
  · exact Download.download_file_exportRequested env fid fname _ out none
      [("text/plain", ".txt"),
       ("application/vnd.openxmlformats-officedocument.wordprocessingml.document", ".docx"),
       ("application/pdf", ".pdf"), ("text/html", ".html")] _
      (by decide) (by decide) (by decide) (by rfl)
  · exact Download.download_file_exportRequested env fid fname _ out none
      [("application/vnd.openxmlformats-officedocument.spreadsheetml.sheet", ".xlsx"),
       ("text/csv", ".csv"), ("application/pdf", ".pdf")] _
      (by decide) (by decide) (by decide) (by rfl)
  · exact Download.download_file_exportRequested env fid fname _ out none
      [("application/vnd.openxmlformats-officedocument.presentationml.presentation", ".pptx"),
       ("application/pdf", ".pdf"), ("text/plain", ".txt")] _
      (by decide) (by decide) (by decide) (by rfl)
  · exact Download.download_file_exportRequested env fid fname _ out none
      [("image/png", ".png"), ("image/jpeg", ".jpg"), ("application/pdf", ".pdf")] _
      (by decide) (by decide) (by decide) (by rfl)

/-- Witness for C3: the spreadsheet table has no text/plain entry, so the
default export format is its first-declared entry, the xlsx MIME type. -/
theorem claim_C3_default_format_witness :
    (Download.download_file ⟨fun _ _ => Except.ok "bytes", fun _ => Except.ok "bytes", true⟩
        "fid" "Sheet" "application/vnd.google-apps.spreadsheet" "outdir"
        none).exportRequested =
      some "application/vnd.openxmlformats-officedocument.spreadsheetml.sheet" := by
  have h := claim_C3_default_format "application/vnd.google-apps.spreadsheet"
    [("application/vnd.openxmlformats-officedocument.spreadsheetml.sheet", ".xlsx"),
     ("text/csv", ".csv"),
     ("application/pdf", ".pdf")]
    ⟨fun _ _ => Except.ok "bytes", fun _ => Except.ok "bytes", true⟩
    "fid" "Sheet" "outdir" (by decide) (by decide)
  simpa using h

/-- C4: download_file on a workspace-native tag with an explicit export
format absent from the export table of that tag reports failure, issues no
provider fetch, writes nothing, and the alternatives it lists are exactly
the keys of the export table of that tag. -/
theorem claim_C4_unsupported_format (tag fmt : String) (env : Download.Env)
    (fid fname out : String)
    (hws : strStarts tag "application/vnd.google-apps." = true)
    (hno : (((List.lookup tag Download.EXPORT_MIME_TYPES).getD []).map
        Prod.fst).contains fmt = false) :
    Download.download_file env fid fname tag out (some fmt) =
      { success := false, exportRequested := none, directRequested := false,
        written := none,
        listedAlternatives :=
          ((List.lookup tag Download.EXPORT_MIME_TYPES).getD []).map Prod.fst } := by
  rcases hopts : (List.lookup tag Download.EXPORT_MIME_TYPES).getD [] with _ | ⟨p, rest⟩
  · simp [Download.download_file, hws, hopts]
  · rw [hopts] at hno
    have hch : Download.resolveExportMime (p :: rest) (some fmt) =
        Except.error ((p :: rest).map Prod.fst) := by
      simp only [Download.resolveExportMime]
      rw [hno]
      simp
    exact Download.download_file_badFormat env fid fname tag out (some fmt) (p :: rest) _
      hws hopts (by simp) hch

/-- Witness for C4: requesting text/plain for a spreadsheet fails and the
failure lists the three spreadsheet export formats. -/
theorem claim_C4_unsupported_format_witness :
    Download.download_file ⟨fun _ _ => Except.ok "bytes", fun _ => Except.ok "bytes", true⟩
        "fid" "Sheet" "application/vnd.google-apps.spreadsheet" "outdir"
        (some "text/plain") =
      { success := false, exportRequested := none, directRequested := false,
        written := none,
        listedAlternatives :=
          ["application/vnd.openxmlformats-officedocument.spreadsheetml.sheet",
           "text/csv", "application/pdf"] } := by
  have h := claim_C4_unsupported_format "application/vnd.google-apps.spreadsheet"
    "text/plain"
    ⟨fun _ _ => Except.ok "bytes", fun _ => Except.ok "bytes", true⟩
    "fid" "Sheet" "outdir" (by decide) (by decide)
  simpa using h

namespace Server

/-- EXPORT_MIME_TYPES of src/server.py, lines 33-38: the single export
target per Google Workspace MIME type used by get_file_content. -/
def EXPORT_MIME_TYPES : List (String × String) :=
  [("application/vnd.google-apps.document", "text/plain"),
   ("application/vnd.google-apps.spreadsheet", "text/csv"),
   ("application/vnd.google-apps.presentation", "text/plain"),
   ("application/vnd.google-apps.drawing", "image/png")]

/-- The folder MIME type constant tested by list_folder_contents
(server.py line 364). -/
def folderMime : String := "application/vnd.google-apps.folder"

/-- A credential as google.oauth2 Credentials exposes it: whether an
access token is present, whether it is expired, whether a refresh token is
present, plus an identity used to tell logical credentials apart. -/
structure Cred where
  hasToken : Bool := true
  expired : Bool := false
  hasRefreshToken : Bool := false
  serial : Nat := 0
deriving DecidableEq

/-- The google-auth validity test: a token is present and not expired. -/
def Cred.valid (c : Cred) : Bool := c.hasToken && !c.expired

/-- Environment of get_credentials: the token file, the client-secrets
file, and the outcomes of the refresh network call and of the interactive
consent flow. -/
structure AuthEnv where
  tokenFileExists : Bool
  cached : Cred
  clientSecretsExists : Bool
  refreshResult : Except String Cred
  flowResult : Cred

/-- Side effects of one get_credentials call: whether the refresh network
call ran, whether the interactive flow ran, and what (if anything) was
written to the token file. -/
structure AuthTrace where
  refreshCalled : Bool := false
  flowRun : Bool := false
  tokenWritten : Option Cred := none
deriving DecidableEq

/-- The interactive-consent branch of get_credentials (server.py lines
57-69): missing client_secrets.json raises FileNotFoundError, otherwise
the flow runs, and the obtained credential is persisted and returned. -/
def runFlow (env : AuthEnv) : AuthTrace × Except String Cred :=
  if !env.clientSecretsExists then
    ({}, Except.error "client_secrets.json not found. Please follow the setup instructions.")
  else
    ({ flowRun := true, tokenWritten := some env.flowResult }, Except.ok env.flowResult)

/-- get_credentials of src/server.py, lines 44-71.  A failing refresh
raises out of the function: the trace records that the refresh call was
made, nothing is persisted, and the error propagates. -/
def get_credentials (env : AuthEnv) : AuthTrace × Except String Cred :=
  let creds0 : Option Cred := if env.tokenFileExists then some env.cached else none
  match creds0 with
  | some c =>
    if c.valid then ({}, Except.ok c)
    else if c.expired && c.hasRefreshToken then
      match env.refreshResult with
      | Except.error e => ({ refreshCalled := true }, Except.error e)
      | Except.ok c2 =>
        ({ refreshCalled := true, tokenWritten := some c2 }, Except.ok c2)
    else runFlow env
  | none => runFlow env

/-- The token-file state after a get_credentials call: a persisted
credential replaces the cached one. -/
def applyTrace (env : AuthEnv) (t : AuthTrace) : AuthEnv :=
  match t.tokenWritten with
  | some c => { env with tokenFileExists := true, cached := c }
  | none => env

/-- Environment of the five MCP tools: the outcome of building the Drive
service (auth included), the provider answer to each files().list query as
a function of filter and ordering, a possible provider error per list
request, the files().get outcome per file id, and the export_media and
get_media outcomes with their bytes already decoded as text
(utf-8, errors=replace). -/
structure Env where
  auth : Except String Unit
  listFn : String → String → List Item
  listErr : String → String → Option String
  getFn : String → Except String Item
  exportFn : String → String → Except String String
  mediaFn : String → Except String String
  thresholdStr : Int → String

/-- Requests a tool issued to the provider during one call. -/
structure Trace where
  listCalls : List (String × String × Nat) := []
  getCalls : List String := []
  exportCalls : List (String × String) := []
  mediaCalls : List String := []
deriving DecidableEq

/-- The error payload every tool returns from its except clauses. -/
def errObj (e : String) : JVal := JVal.obj [("error", JVal.str e)]

/-- One service.files().list call: the provider may fail, and otherwise
returns at most pageSize items of its answer to the query. -/
def filesList (env : Env) (q orderBy : String) (pageSize : Nat) :
    Except String (List Item) :=
  match env.listErr q orderBy with
  | some e => Except.error e
  | none => Except.ok ((env.listFn q orderBy).take pageSize)

/-- The per-item output dict shared by search_drive, list_recent_files and
list_folder_contents (server.py lines 118-125). -/
def entryJ (i : Item) : JVal :=
  JVal.obj [("id", optStr i.id), ("name", optStr i.name),
            ("mimeType", optStr i.mimeType), ("modifiedTime", optStr i.modifiedTime),
            ("webViewLink", optStr i.webViewLink)]

/-- The search query built by search_drive (server.py line 102). -/
def searchQueryOf (query : String) : String :=
  "(name contains " ++ qm ++ query ++ qm ++ " or fullText contains " ++ qm ++ query ++ qm ++
    ") and trashed = false"

/-- search_drive of src/server.py, lines 80-132. -/
def search_drive (env : Env) (query : String) (max_results : Nat) : Trace × JVal :=
  match env.auth with
  | Except.error e => ({}, errObj e)
  | Except.ok _ =>
    let m := min max_results 100
    let sq := searchQueryOf query
    let tr : Trace := { listCalls := [(sq, "modifiedTime desc", m)] }
    match filesList env sq "modifiedTime desc" m with
    | Except.error e => (tr, errObj e)
    | Except.ok items =>
      if items.isEmpty then
        (tr, JVal.obj [("message", JVal.str ("No files found matching " ++ qm ++ query ++ qm)),
                       ("files", JVal.arr [])])
      else
        (tr, JVal.obj [("count", JVal.num items.length),
                       ("files", JVal.arr (items.map entryJ))])

/-- The recency query built by list_recent_files (server.py line 158). -/
def recentQueryOf (t : String) : String :=
  "modifiedTime >= " ++ qm ++ t ++ qm ++ " and trashed = false"

/-- list_recent_files of src/server.py, lines 135-195. -/
def list_recent_files (env : Env) (hours : Int) (max_results : Nat) : Trace × JVal :=
  match env.auth with
  | Except.error e => ({}, errObj e)
  | Except.ok _ =>
    let m := min max_results 100
    let q := recentQueryOf (env.thresholdStr hours)
    let tr : Trace := { listCalls := [(q, "modifiedTime desc", m)] }
    match filesList env q "modifiedTime desc" m with
    | Except.error e => (tr, errObj e)
    | Except.ok items =>
      if items.isEmpty then
        (tr, JVal.obj [("message",
                         JVal.str ("No files modified in the last " ++ toString hours ++ " hours")),
                       ("files", JVal.arr [])])
      else
        (tr, JVal.obj [("hours", JVal.num hours), ("count", JVal.num items.length),
                       ("files", JVal.arr (items.map entryJ))])

/-- get_file_content of src/server.py, lines 198-280. -/
def get_file_content (env : Env) (file_id : String) : Trace × JVal :=
  match env.auth with
  | Except.error e => ({}, errObj e)
  | Except.ok _ =>
    match env.getFn file_id with
    | Except.error e => ({ getCalls := [file_id] }, errObj e)
    | Except.ok md =>
      let mime_type := md.mimeType.getD ""
      let file_name := md.name.getD "Unknown"
      match List.lookup mime_type EXPORT_MIME_TYPES with
      | some export_mime =>
        let tr : Trace := { getCalls := [file_id], exportCalls := [(file_id, export_mime)] }
        match env.exportFn file_id export_mime with
        | Except.error e => (tr, errObj e)
        | Except.ok content =>
          (tr, JVal.obj [("name", JVal.str file_name), ("mimeType", JVal.str mime_type),
                         ("exportedAs", JVal.str export_mime), ("content", JVal.str content)])
      | none =>
        if strStarts mime_type "text/" || mime_type == "application/json" then
          let tr : Trace := { getCalls := [file_id], mediaCalls := [file_id] }
          match env.mediaFn file_id with
          | Except.error e => (tr, errObj e)
          | Except.ok content =>
            (tr, JVal.obj [("name", JVal.str file_name), ("mimeType", JVal.str mime_type),
                           ("content", JVal.str content)])
        else
          ({ getCalls := [file_id] },
           JVal.obj [("name", JVal.str file_name), ("mimeType", JVal.str mime_type),
                     ("size", JVal.str (md.size.getD "Unknown")),
                     ("webViewLink", optStr md.webViewLink),
                     ("note", JVal.str "Binary file - content not extracted. Use webViewLink to view.")])

/-- Owner display resolution of get_file_metadata (server.py lines
311-312): display name, else email address, else Unknown. -/
def displayOwner (o : Owner) : String :=
  o.displayName.getD (o.emailAddress.getD "Unknown")

/-- get_file_metadata of src/server.py, lines 283-318. -/
def get_file_metadata (env : Env) (file_id : String) : Trace × JVal :=
  match env.auth with
  | Except.error e => ({}, errObj e)
  | Except.ok _ =>
    match env.getFn file_id with
    | Except.error e => ({ getCalls := [file_id] }, errObj e)
    | Except.ok md =>
      ({ getCalls := [file_id] },
       JVal.obj [("id", optStr md.id), ("name", optStr md.name),
                 ("mimeType", optStr md.mimeType),
                 ("size", JVal.str (md.size.getD "N/A")),
                 ("createdTime", optStr md.createdTime),
                 ("modifiedTime", optStr md.modifiedTime),
                 ("webViewLink", optStr md.webViewLink),
                 ("shared", JVal.bool (md.shared.getD false)),
                 ("owners", JVal.arr (md.owners.map (fun o => JVal.str (displayOwner o))))])

/-- The in-folder query built by list_folder_contents (server.py
line 340). -/
def folderQueryOf (folder_id : String) : String :=
  qm ++ folder_id ++ qm ++ " in parents and trashed = false"

/-- The folder/file split loop of list_folder_contents (server.py lines
351-367), keeping response order within each part. -/
def partitionItems : List Item → List Item × List Item
  | [] => ([], [])
  | i :: rest =>
    let p := partitionItems rest
    if i.mimeType == some folderMime then (i :: p.1, p.2) else (p.1, i :: p.2)

/-- list_folder_contents of src/server.py, lines 321-380. -/
def list_folder_contents (env : Env) (folder_id : String) (max_results : Nat) :
    Trace × JVal :=
  match env.auth with
  | Except.error e => ({}, errObj e)
  | Except.ok _ =>
    let m := min max_results 100
    let q := folderQueryOf folder_id
    let tr : Trace := { listCalls := [(q, "folder,name", m)] }
    match filesList env q "folder,name" m with
    | Except.error e => (tr, errObj e)
    | Except.ok items =>
      let p := partitionItems items
      (tr, JVal.obj [("folder_id", JVal.str folder_id),
                     ("folder_count", JVal.num p.1.length),
                     ("file_count", JVal.num p.2.length),
                     ("folders", JVal.arr (p.1.map entryJ)),
                     ("files", JVal.arr (p.2.map entryJ))])

end Server

/-- A concrete auth state: a cached token exists, it is expired, a refresh
token is present, client secrets are available, an interactive flow would
succeed, but the provider rejects the refresh. -/
def envC5 : Server.AuthEnv :=
  { tokenFileExists := true,
    cached := { hasToken := true, expired := true, hasRefreshToken := true, serial := 0 },
    clientSecretsExists := true,
    refreshResult := Except.error "invalid_grant: token has been revoked",
    flowResult := { serial := 1 } }

/-- C5 counterexample: with an expired cached credential carrying a refresh
token whose refresh the provider rejects, get_credentials raises the
refresh failure to its caller: the interactive flow does not run, nothing
is persisted, and no new credential is returned, contradicting the claimed
fallback to the consent flow. -/
theorem claim_C5_counterexample :
    Server.get_credentials envC5 =
      ({ refreshCalled := true, flowRun := false, tokenWritten := none },
       Except.error "invalid_grant: token has been revoked") := by
  rfl

/-- C5 amended: whenever the cached credential exists, is expired and has a
refresh token, and the provider rejects the refresh, get_credentials
propagates the refresh failure: it makes the refresh network call only,
runs no interactive flow, persists nothing, and returns the error. -/
theorem claim_C5_amended_refresh_failure_propagates (env : Server.AuthEnv) (e : String)
    (hfile : env.tokenFileExists = true)
    (hexp : env.cached.expired = true)
    (hrt : env.cached.hasRefreshToken = true)
    (href : env.refreshResult = Except.error e) :
    Server.get_credentials env =
      ({ refreshCalled := true, flowRun := false, tokenWritten := none },
       Except.error e) := by
  simp [Server.get_credentials, Server.Cred.valid, hfile, hexp, hrt, href]

/-- Witness for the amended C5 at the concrete state envC5. -/
theorem claim_C5_amended_refresh_failure_propagates_witness :
    Server.get_credentials envC5 =
      ({ refreshCalled := true, flowRun := false, tokenWritten := none },
       Except.error "invalid_grant: token has been revoked") :=
  claim_C5_amended_refresh_failure_propagates envC5
    "invalid_grant: token has been revoked" rfl rfl rfl rfl

/-- C6: with a persisted, still-valid credential (token present, not
expired), get_credentials performs no refresh call, runs no flow, rewrites
no token file, returns exactly the cached credential, and a repeated call
against the resulting state returns the same answer. -/
theorem claim_C6_idempotent_when_valid (env : Server.AuthEnv)
    (hfile : env.tokenFileExists = true)
    (htok : env.cached.hasToken = true)
    (hexp : env.cached.expired = false) :
    Server.get_credentials env =
      ({ refreshCalled := false, flowRun := false, tokenWritten := none },
       Except.ok env.cached) ∧
    Server.get_credentials
        (Server.applyTrace env (Server.get_credentials env).1) =
      Server.get_credentials env := by
  have h1 : Server.get_credentials env =
      ({ refreshCalled := false, flowRun := false, tokenWritten := none },
       Except.ok env.cached) := by
    simp [Server.get_credentials, Server.Cred.valid, hfile, htok, hexp]
  refine ⟨h1, ?_⟩
  rw [h1]
  simp [Server.applyTrace, h1]

/-- Witness for C6: a concrete valid cached credential. -/
theorem claim_C6_idempotent_when_valid_witness :
    Server.get_credentials
        { tokenFileExists := true,
          cached := { hasToken := true, expired := false, hasRefreshToken := true, serial := 7 },
          clientSecretsExists := false,
          refreshResult := Except.error "unused",
          flowResult := { serial := 8 } } =
      ({ refreshCalled := false, flowRun := false, tokenWritten := none },
       Except.ok { hasToken := true, expired := false, hasRefreshToken := true, serial := 7 }) :=
  (claim_C6_idempotent_when_valid
    { tokenFileExists := true,
      cached := { hasToken := true, expired := false, hasRefreshToken := true, serial := 7 },
      clientSecretsExists := false,
      refreshResult := Except.error "unused",
      flowResult := { serial := 8 } } rfl rfl rfl).1

/-- Evaluation of get_file_content on a tag with an export mapping entry:
the trace holds exactly the metadata get and the export request (no direct
media fetch), and the payload carries the export tag and decoded text when
the export succeeds. -/
theorem Server.get_file_content_export (env : Server.Env) (fid : String) (md : Item)
    (e : String)
    (hauth : env.auth = Except.ok ())
    (hget : env.getFn fid = Except.ok md)
    (he : List.lookup (md.mimeType.getD "") Server.EXPORT_MIME_TYPES = some e) :
    Server.get_file_content env fid =
      ({ getCalls := [fid], exportCalls := [(fid, e)] },
       match env.exportFn fid e with
       | Except.error err => Server.errObj err
       | Except.ok content =>
         JVal.obj [("name", JVal.str (md.name.getD "Unknown")),
                   ("mimeType", JVal.str (md.mimeType.getD "")),
                   ("exportedAs", JVal.str e), ("content", JVal.str content)]) := by
  cases hex : env.exportFn fid e <;>
    simp [Server.get_file_content, hauth, hget, he, hex]

/-- Evaluation of get_file_content on a tag with no export mapping entry
that is neither text-like nor JSON: no bytes are fetched and the payload is
metadata-only. -/
theorem Server.get_file_content_binary (env : Server.Env) (fid : String) (md : Item)
    (hauth : env.auth = Except.ok ())
    (hget : env.getFn fid = Except.ok md)
    (hnone : List.lookup (md.mimeType.getD "") Server.EXPORT_MIME_TYPES = none)
    (htxt : strStarts (md.mimeType.getD "") "text/" = false)
    (hjson : (md.mimeType.getD "" == "application/json") = false) :
    Server.get_file_content env fid =
      ({ getCalls := [fid] },
       JVal.obj [("name", JVal.str (md.name.getD "Unknown")),
                 ("mimeType", JVal.str (md.mimeType.getD "")),
                 ("size", JVal.str (md.size.getD "Unknown")),
                 ("webViewLink", optStr md.webViewLink),
                 ("note", JVal.str "Binary file - content not extracted. Use webViewLink to view.")]) := by
  simp [Server.get_file_content, hauth, hget, hnone, htxt, hjson]

/-- C1: get_file_content dispatches on the MIME tag of the fetched
metadata.  A tag with an EXPORT_MIME_TYPES entry is always exported to the
mapped representation, never fetched directly, and a successful export
returns the lossily decoded text together with the exportedAs tag (the
spreadsheet tag maps to text/csv).  A tag with no entry that is neither
text-like nor application/json triggers no byte fetch at all and yields a
payload with no content field. -/
theorem claim_C1_get_content_dispatch (env : Server.Env) (fid : String) (md : Item)
    (hauth : env.auth = Except.ok ())
    (hget : env.getFn fid = Except.ok md) :
    (∀ e, List.lookup (md.mimeType.getD "") Server.EXPORT_MIME_TYPES = some e →
      (Server.get_file_content env fid).1.mediaCalls = [] ∧
      (Server.get_file_content env fid).1.exportCalls = [(fid, e)] ∧
      (md.mimeType.getD "" = "application/vnd.google-apps.spreadsheet" → e = "text/csv") ∧
      (∀ c, env.exportFn fid e = Except.ok c →
        (Server.get_file_content env fid).2 =
          JVal.obj [("name", JVal.str (md.name.getD "Unknown")),
                    ("mimeType", JVal.str (md.mimeType.getD "")),
                    ("exportedAs", JVal.str e), ("content", JVal.str c)])) ∧
    (List.lookup (md.mimeType.getD "") Server.EXPORT_MIME_TYPES = none →
     strStarts (md.mimeType.getD "") "text/" = false →
     (md.mimeType.getD "" == "application/json") = false →
      (Server.get_file_content env fid).1.mediaCalls = [] ∧
      (Server.get_file_content env fid).1.exportCalls = [] ∧
      ∃ fs, (Server.get_file_content env fid).2 = JVal.obj fs ∧
        (fs.map Prod.fst).contains "content" = false) := by
  constructor
  · intro e he
    have h := Server.get_file_content_export env fid md e hauth hget he
    refine ⟨by rw [h], by rw [h], ?_, ?_⟩
    · intro hmt
      rw [hmt] at he
      have hcsv : List.lookup "application/vnd.google-apps.spreadsheet"
          Server.EXPORT_MIME_TYPES = some "text/csv" := rfl
      rw [hcsv] at he
      exact (Option.some.inj he).symm
    · intro c hc
      rw [h, hc]
  · intro hnone htxt hjson
    have h := Server.get_file_content_binary env fid md hauth hget hnone htxt hjson
    exact ⟨by rw [h], by rw [h],
      ⟨[("name", JVal.str (md.name.getD "Unknown")),
        ("mimeType", JVal.str (md.mimeType.getD "")),
        ("size", JVal.str (md.size.getD "Unknown")),
        ("webViewLink", optStr md.webViewLink),
        ("note", JVal.str "Binary file - content not extracted. Use webViewLink to view.")],
       by rw [h], rfl⟩⟩

/-- A spreadsheet item and a binary (PDF) item for the C1 witness. -/
def mdSheet : Item :=
  { name := some "Budget", mimeType := some "application/vnd.google-apps.spreadsheet" }

/-- A binary item whose tag has no export entry and is not text-like. -/
def mdPdf : Item :=
  { name := some "Scan", mimeType := some "application/pdf", size := some "123" }

/-- Concrete environment for the C1 witness. -/
def envC1 : Server.Env :=
  { auth := Except.ok (),
    listFn := fun _ _ => [], listErr := fun _ _ => none,
    getFn := fun fid => if fid == "s1" then Except.ok mdSheet else Except.ok mdPdf,
    exportFn := fun _ _ => Except.ok "a,b,c",
    mediaFn := fun _ => Except.ok "",
    thresholdStr := fun _ => "T" }

/-- Witness for C1: a spreadsheet is exported as text/csv with its decoded
content and no direct fetch, and a PDF is returned metadata-only with no
byte fetch and no content field. -/
theorem claim_C1_get_content_dispatch_witness :
    (Server.get_file_content envC1 "s1").1.mediaCalls = [] ∧
    (Server.get_file_content envC1 "s1").1.exportCalls = [("s1", "text/csv")] ∧
    (Server.get_file_content envC1 "s1").2 =
      JVal.obj [("name", JVal.str "Budget"),
                ("mimeType", JVal.str "application/vnd.google-apps.spreadsheet"),
                ("exportedAs", JVal.str "text/csv"), ("content", JVal.str "a,b,c")] ∧
    (Server.get_file_content envC1 "p1").1.mediaCalls = [] ∧
    (Server.get_file_content envC1 "p1").1.exportCalls = [] ∧
    ∃ fs, (Server.get_file_content envC1 "p1").2 = JVal.obj fs ∧
      (fs.map Prod.fst).contains "content" = false := by
  have h1 := claim_C1_get_content_dispatch envC1 "s1" mdSheet rfl rfl
  have h2 := claim_C1_get_content_dispatch envC1 "p1" mdPdf rfl rfl
  have hs := h1.1 "text/csv" rfl
  have hb := h2.2 rfl rfl rfl
  exact ⟨hs.1, hs.2.1, hs.2.2.2 "a,b,c" rfl, hb.1, hb.2.1, hb.2.2⟩

/-- Correctness of the folder/file split: every left item carries the
folder MIME type, no right item does, and the two parts together are a
permutation of the input (each fetched item lands in exactly one part). -/
theorem Server.partitionItems_spec (items : List Item) :
    (∀ i ∈ (Server.partitionItems items).1, i.mimeType = some Server.folderMime) ∧
    (∀ i ∈ (Server.partitionItems items).2, i.mimeType ≠ some Server.folderMime) ∧
    ((Server.partitionItems items).1 ++ (Server.partitionItems items).2).Perm items := by
  induction items with
  | nil => simp [Server.partitionItems]
  | cons i rest ih =>
    obtain ⟨h1, h2, h3⟩ := ih
    by_cases hm : i.mimeType = some Server.folderMime
    · have hb : (i.mimeType == some Server.folderMime) = true := by
        exact beq_iff_eq.mpr hm
      refine ⟨?_, ?_, ?_⟩ <;> simp only [Server.partitionItems, hb, if_pos]
      · intro j hj
        rcases List.mem_cons.mp hj with hj | hj
        · exact hj ▸ hm
        · exact h1 j hj
      · exact h2
      · exact h3.cons i
    · have hb : (i.mimeType == some Server.folderMime) = false := by
        exact beq_eq_false_iff_ne.mpr hm
      refine ⟨?_, ?_, ?_⟩ <;> simp only [Server.partitionItems, hb, Bool.false_eq_true,
        if_false]
      · exact h1
      · intro j hj
        rcases List.mem_cons.mp hj with hj | hj
        · exact hj ▸ hm
        · exact h2 j hj
      · exact List.perm_middle.trans (h3.cons i)

/-- The field names of an object payload, in order. -/
def payloadKeys (j : JVal) : List String :=
  match j with
  | JVal.obj fs => fs.map Prod.fst
  | _ => []

/-- C7: on a successful provider response, list_folder_contents returns
the payload whose folders part is exactly the items carrying the folder
MIME constant and whose files part is exactly the others, each fetched
item appears in exactly one part (the concatenation is a permutation of
the response), and the folders field precedes the files field in the
payload. -/
theorem claim_C7_folder_partition (env : Server.Env) (folder_id : String)
    (max_results : Nat) (items : List Item)
    (hauth : env.auth = Except.ok ())
    (hlist : Server.filesList env (Server.folderQueryOf folder_id) "folder,name"
        (min max_results 100) = Except.ok items) :
    (Server.list_folder_contents env folder_id max_results).2 =
      JVal.obj [("folder_id", JVal.str folder_id),
                ("folder_count", JVal.num (Server.partitionItems items).1.length),
                ("file_count", JVal.num (Server.partitionItems items).2.length),
                ("folders", JVal.arr ((Server.partitionItems items).1.map Server.entryJ)),
                ("files", JVal.arr ((Server.partitionItems items).2.map Server.entryJ))] ∧
    payloadKeys (Server.list_folder_contents env folder_id max_results).2 =
      ["folder_id", "folder_count", "file_count", "folders", "files"] ∧
    (∀ i ∈ (Server.partitionItems items).1, i.mimeType = some Server.folderMime) ∧
    (∀ i ∈ (Server.partitionItems items).2, i.mimeType ≠ some Server.folderMime) ∧
    ((Server.partitionItems items).1 ++ (Server.partitionItems items).2).Perm items := by
  have hp : (Server.list_folder_contents env folder_id max_results).2 =
      JVal.obj [("folder_id", JVal.str folder_id),
                ("folder_count", JVal.num (Server.partitionItems items).1.length),
                ("file_count", JVal.num (Server.partitionItems items).2.length),
                ("folders", JVal.arr ((Server.partitionItems items).1.map Server.entryJ)),
                ("files", JVal.arr ((Server.partitionItems items).2.map Server.entryJ))] := by
    simp [Server.list_folder_contents, hauth, hlist]
  obtain ⟨h1, h2, h3⟩ := Server.partitionItems_spec items
  exact ⟨hp, by rw [hp]; rfl, h1, h2, h3⟩

/-- A folder item for the C7 witness. -/
def itemFolderW : Item :=
  { id := some "d1", name := some "Docs",
    mimeType := some "application/vnd.google-apps.folder" }

/-- A plain file item for the C7 witness. -/
def itemFileW : Item :=
  { id := some "f1", name := some "a.txt", mimeType := some "text/plain" }

/-- Concrete environment for the C7 witness: the provider returns a file
and a folder, in that order. -/
def envC7 : Server.Env :=
  { auth := Except.ok (),
    listFn := fun _ _ => [itemFileW, itemFolderW],
    listErr := fun _ _ => none,
    getFn := fun _ => Except.error "unused",
    exportFn := fun _ _ => Except.error "unused",
    mediaFn := fun _ => Except.error "unused",
    thresholdStr := fun _ => "T" }

/-- Witness for C7 at a concrete response of one file and one folder: the
folder lands in the folders part, the file in the files part, folders
first. -/
theorem claim_C7_folder_partition_witness :
    (Server.list_folder_contents envC7 "root" 50).2 =
      JVal.obj [("folder_id", JVal.str "root"),
                ("folder_count", JVal.num 1),
                ("file_count", JVal.num 1),
                ("folders", JVal.arr [Server.entryJ itemFolderW]),
                ("files", JVal.arr [Server.entryJ itemFileW])] := by
  have h := (claim_C7_folder_partition envC7 "root" 50 [itemFileW, itemFolderW]
    rfl rfl).1
  rw [h]
  rfl

/-- Number of entries under the files key of a payload. -/
def filesCount (j : JVal) : Nat :=
  match j with
  | JVal.obj fs =>
    match List.lookup "files" fs with
    | some (JVal.arr xs) => xs.length
    | _ => 0
  | _ => 0

/-- Number of entries under the folders key of a payload. -/
def foldersCount (j : JVal) : Nat :=
  match j with
  | JVal.obj fs =>
    match List.lookup "folders" fs with
    | some (JVal.arr xs) => xs.length
    | _ => 0
  | _ => 0

/-- An error payload lists no files. -/
theorem filesCount_errObj (e : String) : filesCount (Server.errObj e) = 0 := rfl

/-- An error payload lists no folders. -/
theorem foldersCount_errObj (e : String) : foldersCount (Server.errObj e) = 0 := rfl

/-- Count of a message-and-files payload. -/
theorem filesCount_msg (m : String) (xs : List JVal) :
    filesCount (JVal.obj [("message", JVal.str m), ("files", JVal.arr xs)]) = xs.length :=
  rfl

/-- Count of a count-and-files payload. -/
theorem filesCount_search (cnt : Int) (xs : List JVal) :
    filesCount (JVal.obj [("count", JVal.num cnt), ("files", JVal.arr xs)]) = xs.length :=
  rfl

/-- Count of an hours-count-files payload. -/
theorem filesCount_recent (h cnt : Int) (xs : List JVal) :
    filesCount (JVal.obj [("hours", JVal.num h), ("count", JVal.num cnt),
      ("files", JVal.arr xs)]) = xs.length := rfl

/-- Files count of the folder-listing payload. -/
theorem filesCount_folder (fid : String) (a b : Int) (ys xs : List JVal) :
    filesCount (JVal.obj [("folder_id", JVal.str fid), ("folder_count", JVal.num a),
      ("file_count", JVal.num b), ("folders", JVal.arr ys), ("files", JVal.arr xs)]) =
      xs.length := rfl

/-- Folders count of the folder-listing payload. -/
theorem foldersCount_folder (fid : String) (a b : Int) (ys xs : List JVal) :
    foldersCount (JVal.obj [("folder_id", JVal.str fid), ("folder_count", JVal.num a),
      ("file_count", JVal.num b), ("folders", JVal.arr ys), ("files", JVal.arr xs)]) =
      ys.length := rfl

/-- A successful files().list response never holds more items than the
requested page size. -/
theorem Server.filesList_length (env : Server.Env) (q orderBy : String)
    (pageSize : Nat) (items : List Item)
    (h : Server.filesList env q orderBy pageSize = Except.ok items) :
    items.length ≤ pageSize := by
  unfold Server.filesList at h
  rcases he : env.listErr q orderBy with _ | e
  · rw [he] at h
    have := Except.ok.inj h
    rw [← this]
    exact (List.length_take _ _).le.trans (min_le_left _ _)
  · rw [he] at h
    exact absurd h (by simp)

/-- search_drive returns at most min max_results 100 items and requests
exactly that page size. -/
theorem Server.search_drive_cap (env : Server.Env) (q : String) (n : Nat) :
    filesCount (Server.search_drive env q n).2 ≤ min n 100 ∧
    ∀ c ∈ (Server.search_drive env q n).1.listCalls, c.2.2 = min n 100 := by
  rcases hauth : env.auth with e | u
  · have h : Server.search_drive env q n = ({}, Server.errObj e) := by
      simp [Server.search_drive, hauth]
    rw [h]
    exact ⟨by simp [filesCount_errObj], by simp⟩
  · rcases hlist : Server.filesList env (Server.searchQueryOf q) "modifiedTime desc"
        (min n 100) with e | items
    · have h : Server.search_drive env q n =
          ({ listCalls := [(Server.searchQueryOf q, "modifiedTime desc", min n 100)] },
           Server.errObj e) := by
        simp [Server.search_drive, hauth, hlist]
      rw [h]
      refine ⟨by simp [filesCount_errObj], ?_⟩
      intro c hc
      simp only [List.mem_singleton] at hc
      subst hc
      rfl
    · have hlen := Server.filesList_length env _ _ _ _ hlist
      by_cases hemp : items.isEmpty
      · have h : Server.search_drive env q n =
            ({ listCalls := [(Server.searchQueryOf q, "modifiedTime desc", min n 100)] },
             JVal.obj [("message",
                         JVal.str ("No files found matching " ++ qm ++ q ++ qm)),
                       ("files", JVal.arr [])]) := by
          simp [Server.search_drive, hauth, hlist, hemp]
        rw [h]
        refine ⟨by simp [filesCount_msg], ?_⟩
        intro c hc
        simp only [List.mem_singleton] at hc
        subst hc
        rfl
      · have h : Server.search_drive env q n =
            ({ listCalls := [(Server.searchQueryOf q, "modifiedTime desc", min n 100)] },
             JVal.obj [("count", JVal.num items.length),
                       ("files", JVal.arr (items.map Server.entryJ))]) := by
          simp [Server.search_drive, hauth, hlist, hemp]
        rw [h]
        refine ⟨?_, ?_⟩
        · have e2 : filesCount (JVal.obj [("count", JVal.num items.length),
              ("files", JVal.arr (items.map Server.entryJ))]) = items.length := by
            rw [filesCount_search]
            exact List.length_map items Server.entryJ
          exact le_of_eq_of_le e2 hlen
        · intro c hc
          simp only [List.mem_singleton] at hc
          subst hc
          rfl

/-- list_recent_files returns at most min max_results 100 items and
requests exactly that page size. -/
theorem Server.list_recent_files_cap (env : Server.Env) (hours : Int) (n : Nat) :
    filesCount (Server.list_recent_files env hours n).2 ≤ min n 100 ∧
    ∀ c ∈ (Server.list_recent_files env hours n).1.listCalls, c.2.2 = min n 100 := by
  rcases hauth : env.auth with e | u
  · have h : Server.list_recent_files env hours n = ({}, Server.errObj e) := by
      simp [Server.list_recent_files, hauth]
    rw [h]
    exact ⟨by simp [filesCount_errObj], by simp⟩
  · rcases hlist : Server.filesList env
        (Server.recentQueryOf (env.thresholdStr hours)) "modifiedTime desc"
        (min n 100) with e | items
    · have h : Server.list_recent_files env hours n =
          ({ listCalls := [(Server.recentQueryOf (env.thresholdStr hours),
              "modifiedTime desc", min n 100)] },
           Server.errObj e) := by
        simp [Server.list_recent_files, hauth, hlist]
      rw [h]
      refine ⟨by simp [filesCount_errObj], ?_⟩
      intro c hc
      simp only [List.mem_singleton] at hc
      subst hc
      rfl
    · have hlen := Server.filesList_length env _ _ _ _ hlist
      by_cases hemp : items.isEmpty
      · have h : Server.list_recent_files env hours n =
            ({ listCalls := [(Server.recentQueryOf (env.thresholdStr hours),
                "modifiedTime desc", min n 100)] },
             JVal.obj [("message",
                  JVal.str ("No files modified in the last " ++ toString hours ++ " hours")),
               ("files", JVal.arr [])]) := by
          simp [Server.list_recent_files, hauth, hlist, hemp]
        rw [h]
        refine ⟨by simp [filesCount_msg], ?_⟩
        intro c hc
        simp only [List.mem_singleton] at hc
        subst hc
        rfl
      · have h : Server.list_recent_files env hours n =
            ({ listCalls := [(Server.recentQueryOf (env.thresholdStr hours),
                "modifiedTime desc", min n 100)] },
             JVal.obj [("hours", JVal.num hours), ("count", JVal.num items.length),
                       ("files", JVal.arr (items.map Server.entryJ))]) := by
          simp [Server.list_recent_files, hauth, hlist, hemp]
        rw [h]
        refine ⟨?_, ?_⟩
        · have e2 : filesCount (JVal.obj [("hours", JVal.num hours),
              ("count", JVal.num items.length),
              ("files", JVal.arr (items.map Server.entryJ))]) = items.length := by
            rw [filesCount_recent]
            exact List.length_map items Server.entryJ
          exact le_of_eq_of_le e2 hlen
        · intro c hc
          simp only [List.mem_singleton] at hc
          subst hc
          rfl

/-- list_folder_contents returns at most min max_results 100 items across
its folders and files parts together, and requests exactly that page
size. -/
theorem Server.list_folder_contents_cap (env : Server.Env) (folder_id : String)
    (n : Nat) :
    foldersCount (Server.list_folder_contents env folder_id n).2 +
      filesCount (Server.list_folder_contents env folder_id n).2 ≤ min n 100 ∧
    ∀ c ∈ (Server.list_folder_contents env folder_id n).1.listCalls,
      c.2.2 = min n 100 := by
  rcases hauth : env.auth with e | u
  · have h : Server.list_folder_contents env folder_id n = ({}, Server.errObj e) := by
      simp [Server.list_folder_contents, hauth]
    rw [h]
    exact ⟨by simp [filesCount_errObj, foldersCount_errObj], by simp⟩
  · rcases hlist : Server.filesList env (Server.folderQueryOf folder_id) "folder,name"
        (min n 100) with e | items
    · have h : Server.list_folder_contents env folder_id n =
          ({ listCalls := [(Server.folderQueryOf folder_id, "folder,name", min n 100)] },
           Server.errObj e) := by
        simp [Server.list_folder_contents, hauth, hlist]
      rw [h]
      refine ⟨by simp [filesCount_errObj, foldersCount_errObj], ?_⟩
      intro c hc
      simp only [List.mem_singleton] at hc
      subst hc
      rfl
    · have hlen := Server.filesList_length env _ _ _ _ hlist
      have hperm := (Server.partitionItems_spec items).2.2
      have hsum : (Server.partitionItems items).1.length +
          (Server.partitionItems items).2.length = items.length := by
        have hl := hperm.length_eq
        simpa [List.length_append] using hl
      have h : Server.list_folder_contents env folder_id n =
          ({ listCalls := [(Server.folderQueryOf folder_id, "folder,name", min n 100)] },
           JVal.obj [("folder_id", JVal.str folder_id),
                     ("folder_count", JVal.num (Server.partitionItems items).1.length),
                     ("file_count", JVal.num (Server.partitionItems items).2.length),
                     ("folders", JVal.arr ((Server.partitionItems items).1.map Server.entryJ)),
                     ("files", JVal.arr ((Server.partitionItems items).2.map Server.entryJ))]) := by
        simp [Server.list_folder_contents, hauth, hlist]
      rw [h]
      refine ⟨?_, ?_⟩
      · have e1 : foldersCount (JVal.obj [("folder_id", JVal.str folder_id),
            ("folder_count", JVal.num (Server.partitionItems items).1.length),
            ("file_count", JVal.num (Server.partitionItems items).2.length),
            ("folders", JVal.arr ((Server.partitionItems items).1.map Server.entryJ)),
            ("files", JVal.arr ((Server.partitionItems items).2.map Server.entryJ))]) =
            (Server.partitionItems items).1.length := by
          rw [foldersCount_folder]
          exact List.length_map _ Server.entryJ
        have e2 : filesCount (JVal.obj [("folder_id", JVal.str folder_id),
            ("folder_count", JVal.num (Server.partitionItems items).1.length),
            ("file_count", JVal.num (Server.partitionItems items).2.length),
            ("folders", JVal.arr ((Server.partitionItems items).1.map Server.entryJ)),
            ("files", JVal.arr ((Server.partitionItems items).2.map Server.entryJ))]) =
            (Server.partitionItems items).2.length := by
          rw [filesCount_folder]
          exact List.length_map _ Server.entryJ
        calc foldersCount _ + filesCount _ = (Server.partitionItems items).1.length +
              (Server.partitionItems items).2.length := by rw [e1, e2]
          _ = items.length := hsum
          _ ≤ min n 100 := hlen
      · intro c hc
        simp only [List.mem_singleton] at hc
        subst hc
        rfl

/-- C8: for every max_results argument, search_drive, list_recent_files
and list_folder_contents request page size min max_results 100 from the
provider and return at most that many items; in particular a search with
limit 150 returns at most 100 items. -/
theorem claim_C8_result_cap (env : Server.Env) (q folder_id : String) (hours : Int)
    (n : Nat) :
    (filesCount (Server.search_drive env q n).2 ≤ min n 100 ∧
     ∀ c ∈ (Server.search_drive env q n).1.listCalls, c.2.2 = min n 100) ∧
    (filesCount (Server.list_recent_files env hours n).2 ≤ min n 100 ∧
     ∀ c ∈ (Server.list_recent_files env hours n).1.listCalls, c.2.2 = min n 100) ∧
    (foldersCount (Server.list_folder_contents env folder_id n).2 +
       filesCount (Server.list_folder_contents env folder_id n).2 ≤ min n 100 ∧
     ∀ c ∈ (Server.list_folder_contents env folder_id n).1.listCalls,
       c.2.2 = min n 100) ∧
    filesCount (Server.search_drive env q 150).2 ≤ 100 :=
  ⟨Server.search_drive_cap env q n,
   Server.list_recent_files_cap env hours n,
   Server.list_folder_contents_cap env folder_id n,
   le_trans (Server.search_drive_cap env q 150).1 (by norm_num)⟩

/-- The error payload shape of server.py except clauses: a single field
named error holding the message. -/
def errorShaped (j : JVal) : Prop :=
  ∃ m, j = JVal.obj [("error", JVal.str m)]

/-- A success payload: an object none of whose fields is named error. -/
def successShaped (j : JVal) : Prop :=
  ∃ fs, j = JVal.obj fs ∧ (fs.map Prod.fst).contains "error" = false

/-- A well-formed tool result is a success payload or an error payload. -/
def wellFormedResult (j : JVal) : Prop := errorShaped j ∨ successShaped j

/-- search_drive always yields a well-formed result. -/
theorem Server.search_drive_wf (env : Server.Env) (q : String) (n : Nat) :
    wellFormedResult (Server.search_drive env q n).2 := by
  rcases hauth : env.auth with e | u
  · exact Or.inl ⟨e, by simp [Server.search_drive, hauth, Server.errObj]⟩
  · rcases hlist : Server.filesList env (Server.searchQueryOf q) "modifiedTime desc"
        (min n 100) with e | items
    · exact Or.inl ⟨e, by simp [Server.search_drive, hauth, hlist, Server.errObj]⟩
    · by_cases hemp : items.isEmpty
      · exact Or.inr ⟨[("message", JVal.str ("No files found matching " ++ qm ++ q ++ qm)),
          ("files", JVal.arr [])],
          by simp [Server.search_drive, hauth, hlist, hemp], rfl⟩
      · exact Or.inr ⟨[("count", JVal.num items.length),
          ("files", JVal.arr (items.map Server.entryJ))],
          by simp [Server.search_drive, hauth, hlist, hemp], rfl⟩

/-- list_recent_files always yields a well-formed result. -/
theorem Server.list_recent_files_wf (env : Server.Env) (hours : Int) (n : Nat) :
    wellFormedResult (Server.list_recent_files env hours n).2 := by
  rcases hauth : env.auth with e | u
  · exact Or.inl ⟨e, by simp [Server.list_recent_files, hauth, Server.errObj]⟩
  · rcases hlist : Server.filesList env
        (Server.recentQueryOf (env.thresholdStr hours)) "modifiedTime desc"
        (min n 100) with e | items
    · exact Or.inl ⟨e, by simp [Server.list_recent_files, hauth, hlist, Server.errObj]⟩
    · by_cases hemp : items.isEmpty
      · exact Or.inr ⟨[("message",
          JVal.str ("No files modified in the last " ++ toString hours ++ " hours")),
          ("files", JVal.arr [])],
          by simp [Server.list_recent_files, hauth, hlist, hemp], rfl⟩
      · exact Or.inr ⟨[("hours", JVal.num hours), ("count", JVal.num items.length),
          ("files", JVal.arr (items.map Server.entryJ))],
          by simp [Server.list_recent_files, hauth, hlist, hemp], rfl⟩

/-- get_file_content always yields a well-formed result. -/
theorem Server.get_file_content_wf (env : Server.Env) (fid : String) :
    wellFormedResult (Server.get_file_content env fid).2 := by
  rcases hauth : env.auth with e | u
  · exact Or.inl ⟨e, by simp [Server.get_file_content, hauth, Server.errObj]⟩
  · rcases hget : env.getFn fid with e | md
    · exact Or.inl ⟨e, by simp [Server.get_file_content, hauth, hget, Server.errObj]⟩
    · rcases hlk : List.lookup (md.mimeType.getD "") Server.EXPORT_MIME_TYPES with _ | em
      · by_cases htxt : (strStarts (md.mimeType.getD "") "text/" ||
            (md.mimeType.getD "" == "application/json")) = true
        · rcases hmed : env.mediaFn fid with e | content
          · exact Or.inl ⟨e,
              by simp [Server.get_file_content, hauth, hget, hlk, htxt, hmed, Server.errObj]⟩
          · exact Or.inr ⟨[("name", JVal.str (md.name.getD "Unknown")),
              ("mimeType", JVal.str (md.mimeType.getD "")),
              ("content", JVal.str content)],
              by simp [Server.get_file_content, hauth, hget, hlk, htxt, hmed], rfl⟩
        · have htxt2 : (strStarts (md.mimeType.getD "") "text/" ||
              (md.mimeType.getD "" == "application/json")) = false := by
            exact Bool.not_eq_true _ ▸ Bool.eq_false_iff.mpr htxt
          exact Or.inr ⟨[("name", JVal.str (md.name.getD "Unknown")),
            ("mimeType", JVal.str (md.mimeType.getD "")),
            ("size", JVal.str (md.size.getD "Unknown")),
            ("webViewLink", optStr md.webViewLink),
            ("note", JVal.str "Binary file - content not extracted. Use webViewLink to view.")],
            by simp [Server.get_file_content, hauth, hget, hlk, htxt2], rfl⟩
      · rcases hex : env.exportFn fid em with e | content
        · exact Or.inl ⟨e,
            by simp [Server.get_file_content, hauth, hget, hlk, hex, Server.errObj]⟩
        · exact Or.inr ⟨[("name", JVal.str (md.name.getD "Unknown")),
            ("mimeType", JVal.str (md.mimeType.getD "")),
            ("exportedAs", JVal.str em), ("content", JVal.str content)],
            by simp [Server.get_file_content, hauth, hget, hlk, hex], rfl⟩

/-- get_file_metadata always yields a well-formed result. -/
theorem Server.get_file_metadata_wf (env : Server.Env) (fid : String) :
    wellFormedResult (Server.get_file_metadata env fid).2 := by
  rcases hauth : env.auth with e | u
  · exact Or.inl ⟨e, by simp [Server.get_file_metadata, hauth, Server.errObj]⟩
  · rcases hget : env.getFn fid with e | md
    · exact Or.inl ⟨e, by simp [Server.get_file_metadata, hauth, hget, Server.errObj]⟩
    · exact Or.inr ⟨[("id", optStr md.id), ("name", optStr md.name),
        ("mimeType", optStr md.mimeType),
        ("size", JVal.str (md.size.getD "N/A")),
        ("createdTime", optStr md.createdTime),
        ("modifiedTime", optStr md.modifiedTime),
        ("webViewLink", optStr md.webViewLink),
        ("shared", JVal.bool (md.shared.getD false)),
        ("owners", JVal.arr (md.owners.map (fun o => JVal.str (Server.displayOwner o))))],
        by simp [Server.get_file_metadata, hauth, hget], rfl⟩

/-- list_folder_contents always yields a well-formed result. -/
theorem Server.list_folder_contents_wf (env : Server.Env) (folder_id : String)
    (n : Nat) :
    wellFormedResult (Server.list_folder_contents env folder_id n).2 := by
  rcases hauth : env.auth with e | u
  · exact Or.inl ⟨e, by simp [Server.list_folder_contents, hauth, Server.errObj]⟩
  · rcases hlist : Server.filesList env (Server.folderQueryOf folder_id) "folder,name"
        (min n 100) with e | items
    · exact Or.inl ⟨e, by simp [Server.list_folder_contents, hauth, hlist, Server.errObj]⟩
    · exact Or.inr ⟨[("folder_id", JVal.str folder_id),
        ("folder_count", JVal.num (Server.partitionItems items).1.length),
        ("file_count", JVal.num (Server.partitionItems items).2.length),
        ("folders", JVal.arr ((Server.partitionItems items).1.map Server.entryJ)),
        ("files", JVal.arr ((Server.partitionItems items).2.map Server.entryJ))],
        by simp [Server.list_folder_contents, hauth, hlist], rfl⟩

/-- C2: for every environment (hence every provider outcome, failures
included) and every input, each of the five tools returns a payload that
is either a success object or exactly an error object carrying the
message; no provider failure escapes the tool boundary. -/
theorem claim_C2_tools_never_raise (env : Server.Env) (q fid folder_id : String)
    (hours : Int) (n : Nat) :
    wellFormedResult (Server.search_drive env q n).2 ∧
    wellFormedResult (Server.list_recent_files env hours n).2 ∧
    wellFormedResult (Server.get_file_content env fid).2 ∧
    wellFormedResult (Server.get_file_metadata env fid).2 ∧
    wellFormedResult (Server.list_folder_contents env folder_id n).2 :=
  ⟨Server.search_drive_wf env q n,
   Server.list_recent_files_wf env hours n,
   Server.get_file_content_wf env fid,
   Server.get_file_metadata_wf env fid,
   Server.list_folder_contents_wf env folder_id n⟩

namespace Recent

/-- How a get_credentials call of the CLI scripts can fail: printed lines
followed by sys.exit(1) when client_secrets.json is missing, or an
uncaught exception (for example a rejected refresh). -/
inductive CredFail where
  | exitMsg : List String → CredFail
  | exn : String → CredFail

/-- The interactive-consent branch of get_credentials in
src/_tools/gdrive_recent.py, lines 44-55: missing client_secrets.json
prints two lines and exits, otherwise the flow runs and the credential is
persisted and returned. -/
def runFlow (env : Server.AuthEnv) : Server.AuthTrace × Except CredFail Server.Cred :=
  if !env.clientSecretsExists then
    ({}, Except.error (CredFail.exitMsg
      ["Error: CLIENT_SECRETS_FILE not found!",
       "Please follow the setup instructions to create client_secrets.json"]))
  else
    ({ flowRun := true, tokenWritten := some env.flowResult }, Except.ok env.flowResult)

/-- get_credentials of src/_tools/gdrive_recent.py, lines 31-57; identical
to the server variant except that failures are printed-and-exit or an
uncaught exception. -/
def get_credentials (env : Server.AuthEnv) :
    Server.AuthTrace × Except CredFail Server.Cred :=
  let creds0 : Option Server.Cred :=
    if env.tokenFileExists then some env.cached else none
  match creds0 with
  | some c =>
    if c.valid then ({}, Except.ok c)
    else if c.expired && c.hasRefreshToken then
      match env.refreshResult with
      | Except.error e => ({ refreshCalled := true }, Except.error (CredFail.exn e))
      | Except.ok c2 =>
        ({ refreshCalled := true, tokenWritten := some c2 }, Except.ok c2)
    else runFlow env
  | none => runFlow env

/-- One unit of terminal output: a printed text line, or the json.dumps of
the item list printed in json mode. -/
inductive POut where
  | text : String → POut
  | jsonDump : List JVal → POut

/-- How a get_recent_files invocation ends: normal return after printing,
sys.exit(1) after printing, or an uncaught exception. -/
inductive Outcome where
  | done : List POut → Outcome
  | exit1 : List POut → Outcome
  | crash : String → Outcome

/-- Environment of get_recent_files: the auth state, the threshold string
computed from the clock and the hours argument, the provider list answer
and error, and the strftime rendering of a modification time (the
try/except datetime formatting of lines 126-133). -/
structure Env where
  auth : Server.AuthEnv
  thresholdStr : Int → String
  listFn : String → String → List Item
  listErr : String → String → Option String
  fmtTime : String → String

/-- Query and ordering construction of get_recent_files
(gdrive_recent.py lines 77-88): both the edited and the viewed branch
build the same modifiedTime filter and ordering; any other mode prints an
error and exits. -/
def recentQueryOrder (mode : String) (t : String) : Except String (String × String) :=
  if mode == "edited" then
    Except.ok ("modifiedTime >= " ++ qm ++ t ++ qm ++ " and trashed = false",
               "modifiedTime desc")
  else if mode == "viewed" then
    Except.ok ("modifiedTime >= " ++ qm ++ t ++ qm ++ " and trashed = false",
               "modifiedTime desc")
  else
    Except.error ("Error: mode must be " ++ qm ++ "edited" ++ qm ++ " or " ++ qm ++
      "viewed" ++ qm ++ ", got " ++ qm ++ mode ++ qm)

/-- The per-item dict of the json output path (gdrive_recent.py lines
102-111). -/
def itemJ (i : Item) : JVal :=
  JVal.obj [("id", optStr i.id), ("name", optStr i.name),
            ("mimeType", optStr i.mimeType), ("modifiedTime", optStr i.modifiedTime),
            ("createdTime", optStr i.createdTime), ("webViewLink", optStr i.webViewLink)]

/-- The formatted text block printed for one item (gdrive_recent.py lines
120-139). -/
def itemLines (env : Env) (idx : Nat) (i : Item) : List POut :=
  let name := i.name.getD "Untitled"
  let modified := i.modifiedTime.getD ""
  let link := i.webViewLink.getD ""
  let mod_time_str := if modified != "" then env.fmtTime modified else "Unknown"
  [POut.text (toString idx ++ ". " ++ name),
   POut.text ("   Modified: " ++ mod_time_str)] ++
  (if link != "" then [POut.text ("   Link: " ++ link)] else []) ++
  [POut.text ""]

/-- The enumerate(items, 1) loop of the text output path. -/
def numbered (env : Env) : Nat → List Item → List POut
  | _, [] => []
  | idx, i :: rest => itemLines env idx i ++ numbered env (idx + 1) rest

/-- get_recent_files of src/_tools/gdrive_recent.py, lines 60-143. -/
def get_recent_files (env : Env) (hours : Int) (mode : String)
    (json_output : Bool) : Outcome :=
  match (get_credentials env.auth).2 with
  | Except.error (CredFail.exitMsg lines) => Outcome.exit1 (lines.map POut.text)
  | Except.error (CredFail.exn m) => Outcome.crash m
  | Except.ok _ =>
    let t := env.thresholdStr hours
    match recentQueryOrder mode t with
    | Except.error msg => Outcome.exit1 [POut.text msg]
    | Except.ok (q, order_by) =>
      match env.listErr q order_by with
      | some e => Outcome.exit1 [POut.text ("An error occurred: " ++ e)]
      | none =>
        let items := (env.listFn q order_by).take 50
        if json_output then
          Outcome.done [POut.jsonDump (items.map itemJ)]
        else if items.isEmpty then
          Outcome.done [POut.text ("No files " ++ mode ++ " in the last " ++
            toString hours ++ " hours.")]
        else
          Outcome.done (POut.text ("\n📁 Files " ++ mode ++ " in the last " ++
            toString hours ++ " hours:\n") :: numbered env 1 items)

end Recent

/-- An auth state holding a valid cached credential, used by the C9
environments. -/
def authOkEnv : Server.AuthEnv :=
  { tokenFileExists := true, cached := {}, clientSecretsExists := true,
    refreshResult := Except.ok {}, flowResult := {} }

/-- Concrete environment for the C9 counterexample: auth succeeds and the
provider returns no files. -/
def envC9 : Recent.Env :=
  { auth := authOkEnv, thresholdStr := fun _ => "T",
    listFn := fun _ _ => [], listErr := fun _ _ => none, fmtTime := fun s => s }

/-- C9 counterexample: in the default text output mode the two listing
modes are distinguishable, because the printed line echoes the mode name,
so get_recent_files with mode viewed is not observationally equivalent to
mode edited. -/
theorem claim_C9_counterexample :
    Recent.get_recent_files envC9 24 "viewed" false ≠
      Recent.get_recent_files envC9 24 "edited" false := by
  intro h
  have h2 : Recent.Outcome.done [Recent.POut.text "No files viewed in the last 24 hours."] =
      Recent.Outcome.done [Recent.POut.text "No files edited in the last 24 hours."] := h
  injection h2 with hlist
  injection hlist with hhead htail
  injection hhead with hstr
  exact absurd hstr (by decide)

/-- C9 amended: the viewed mode builds exactly the same filter expression
and ordering as the edited mode, so with identical provider behaviour the
retrieved items coincide and the machine-readable (json) output of the two
modes is identical; only the human-readable text echoes the mode word. -/
theorem claim_C9_amended_same_query (t : String) :
    Recent.recentQueryOrder "viewed" t = Recent.recentQueryOrder "edited" t ∧
    ∀ (env : Recent.Env) (hours : Int),
      Recent.get_recent_files env hours "viewed" true =
        Recent.get_recent_files env hours "edited" true := by
  constructor
  · rfl
  · intro env hours
    rfl

/-- Concatenating strings concatenates their character lists. -/
theorem strDataAppend (a b : String) : (a ++ b).data = a.data ++ b.data := rfl

/-- Consume an expected leading character sequence, returning the rest. -/
def dropLeading : List Char → List Char → Option (List Char)
  | [], cs => some cs
  | _ :: _, [] => none
  | p :: ps, c :: cs => if p = c then dropLeading ps cs else none

/-- Split a character list at its first single-quote character. -/
def takeUntilQuote : List Char → Option (List Char × List Char)
  | [] => none
  | c :: cs =>
    if c = quoteChar then some ([], cs)
    else
      match takeUntilQuote cs with
      | none => none
      | some (a, b) => some (c :: a, b)

/-- Reads a string as a well-formed single-literal name filter of the
Drive query language, the shape find_file_by_name intends to build: the
fixed head, one quote-delimited literal ending at the first closing quote,
and the fixed trashed clause; returns the literal matched, or none when
the string does not have that shape. -/
def parseNameFilter (s : String) : Option String :=
  match dropLeading ("name = " ++ qm).data s.data with
  | none => none
  | some rest =>
    match takeUntilQuote rest with
    | none => none
    | some (lit, rest2) =>
      if rest2 = (" and trashed = false" : String).data then some (String.mk lit)
      else none

/-- Consuming an exact leading sequence succeeds and leaves the tail. -/
theorem dropLeading_append (p rest : List Char) :
    dropLeading p (p ++ rest) = some rest := by
  induction p with
  | nil => rfl
  | cons c cs ih => simp [dropLeading, ih]

/-- Splitting at the first quote of a quote-free block followed by a quote
yields exactly that block and the remainder. -/
theorem takeUntilQuote_append (xs rest : List Char)
    (h : ∀ c ∈ xs, c ≠ quoteChar) :
    takeUntilQuote (xs ++ quoteChar :: rest) = some (xs, rest) := by
  induction xs with
  | nil => simp [takeUntilQuote]
  | cons c cs ih =>
    have hc : c ≠ quoteChar := h c (List.mem_cons_self c cs)
    have ih2 := ih (fun d hd => h d (List.mem_cons_of_mem c hd))
    simp [takeUntilQuote, hc, ih2]

/-- The name of an Irish-named file, holding a single quote. -/
def oBrien : String := "O" ++ qm ++ "Brien"

/-- C10: search_drive and find_file_by_name splice the raw user input
between fixed quote characters with no escaping; a quote-free input round
trips through the single-literal filter grammar, but the filter built from
an input containing a single quote (such as the name O-quote-Brien) is not
a well-formed single-literal match on any input, in particular not on that
input. -/
theorem claim_C10_verbatim_query_injection :
    (∀ q, Server.searchQueryOf q =
      "(name contains " ++ qm ++ q ++ qm ++ " or fullText contains " ++ qm ++ q ++ qm ++
        ") and trashed = false") ∧
    (∀ nm, Download.nameQueryOf nm =
      "name = " ++ qm ++ nm ++ qm ++ " and trashed = false") ∧
    (∀ s, s.data.contains quoteChar = false →
      parseNameFilter (Download.nameQueryOf s) = some s) ∧
    oBrien.data.contains quoteChar = true ∧
    parseNameFilter (Download.nameQueryOf oBrien) = none := by
  refine ⟨fun q => rfl, fun nm => rfl, ?_, by decide, by decide⟩
  intro s h
  have hmem : quoteChar ∉ s.data := by simpa using h
  have hall : ∀ c ∈ s.data, c ≠ quoteChar := fun c hc he => hmem (he ▸ hc)
  have hdata : (Download.nameQueryOf s).data =
      ("name = " ++ qm).data ++
        (s.data ++ (quoteChar :: (" and trashed = false" : String).data)) := by
    simp [Download.nameQueryOf, strDataAppend, qm, List.append_assoc]
  unfold parseNameFilter
  rw [hdata, dropLeading_append]
  simp only [takeUntilQuote_append s.data (" and trashed = false" : String).data hall]
  simp

/-- Witness for C10: a quote-free name round trips through the
single-literal filter grammar verbatim. -/
theorem claim_C10_verbatim_query_injection_witness :
    parseNameFilter (Download.nameQueryOf "Budget") = some "Budget" :=
  claim_C10_verbatim_query_injection.2.2.1 "Budget" (by decide)
